import Mathlib

/-!
Verification development for the anet-kzp ingestion-and-reconciliation
pipeline (src/database.py, src/processor.py, src/app.py).

The persisted SQLite store is modelled as a `Store` record: the `products`
table as an optional association list keyed by the composite key
(market_name, item_code) (the `UNIQUE(market_name, item_code)` constraint
plus `INSERT OR REPLACE` give upsert semantics), the persistent
`product_categories` side table and the `categories` catalog as association
lists, and the FTS5 index as the list of indexed keys.  `Option` on the
products table distinguishes a dropped table from an empty one.  SQL values
bound by the Python layer are modelled by `SqlValue`; Python floats are
modelled as rationals with explicit IEEE-754 double rounding where the
rounding is observable (progress percentages).
-/

/-- Association-list lookup: first entry whose key matches, mirroring an SQL
lookup on a (supposedly unique) key. -/
def lookupAssoc {α β : Type} [DecidableEq α] : List (α × β) → α → Option β
  | [], _ => none
  | (k, v) :: rest, k' => if k = k' then some v else lookupAssoc rest k'

/-- Association-list upsert, mirroring `INSERT OR REPLACE` on the key:
replaces the first entry with the key in place, or appends a new entry. -/
def upsertAssoc {α β : Type} [DecidableEq α] (k : α) (v : β) : List (α × β) → List (α × β)
  | [] => [(k, v)]
  | (k', v') :: rest => if k' = k then (k, v) :: rest else (k', v') :: upsertAssoc k v rest

/-- An SQL value bound by the Python sqlite3 layer: text, a real, or NULL. -/
inductive SqlValue : Type
  | str (s : String)
  | real (q : Rat)
  | null
deriving DecidableEq, Repr

/-- One row of the `products` table (schema in `create_tables`,
src/database.py lines 34-45): settlement, market_name, item_name, item_code
TEXT NOT NULL; the two prices REAL and nullable. -/
structure ProductRow where
  settlement : String
  market_name : String
  item_name : String
  item_code : String
  item_retail_price : Option Rat
  item_promotional_price : Option Rat
deriving DecidableEq, Repr

/-- The persisted store (products.sqlite).  `products = none` models a
dropped `products` table; `fts` holds the keys currently present in the
FTS5 index (its content mirrors `products` only after a rebuild). -/
structure Store where
  products : Option (List ((String × String) × ProductRow))
  product_categories : List ((String × String) × String)
  categories : List (String × String)
  fts : List (String × String)
deriving DecidableEq, Repr

/-- `drop_tables` (src/database.py lines 20-29): drops `products` and
`products_fts` but not `product_categories` or `categories`.  The fresh
sqlite3 connection it uses never enables foreign keys, so the
`ON DELETE CASCADE` action of `product_categories` does not fire. -/
def drop_tables (db : Store) : Store :=
  { db with products := none, fts := [] }

/-- `create_tables` (src/database.py lines 31-88): `CREATE TABLE products`
(fails if it already exists), the FTS5 table, and `CREATE TABLE IF NOT
EXISTS` for `product_categories` and `categories` (both preserved).  The
final FTS rebuild over the empty new table leaves the index empty. -/
def create_tables (db : Store) : Except String Store :=
  match db.products with
  | some _ => Except.error "table products already exists"
  | none => Except.ok { db with products := some [], fts := [] }

/-- `get_current_categories` (src/database.py lines 90-113): reads every
`product_categories` row, keyed `(market_name, item_code)`; the Python
truthiness test `if row['category_code']` drops empty-string codes. -/
def get_current_categories (db : Store) : List ((String × String) × String) :=
  db.product_categories.filter fun kv => kv.2 ≠ ""

/-- Decode one bound price value against a REAL column; a non-numeric text
value would violate the schema's expectations and is rejected. -/
def decodePrice : SqlValue → Option (Option Rat)
  | SqlValue.real q => some (some q)
  | SqlValue.null => some none
  | SqlValue.str _ => none

/-- Decode one 6-value parameter row of the `INSERT OR REPLACE INTO
products` statement (src/database.py lines 121-125) into a `ProductRow`. -/
def decodeRow : List SqlValue → Option ProductRow
  | [SqlValue.str st, SqlValue.str mn, SqlValue.str inm, SqlValue.str ic, rp, pp] =>
    match decodePrice rp, decodePrice pp with
    | some r, some p => some ⟨st, mn, inm, ic, r, p⟩
    | _, _ => none
  | _ => none

/-- Execute the `INSERT OR REPLACE` statement for each parameter row, as
`conn.executemany` does: a row whose length differs from the statement's 6
placeholders raises `sqlite3.ProgrammingError`; an undecodable row models a
constraint/type failure.  Any failure aborts the whole batch. -/
def insertRowsAux : List ((String × String) × ProductRow) → List (List SqlValue) →
    Except String (List ((String × String) × ProductRow))
  | tbl, [] => Except.ok tbl
  | tbl, r :: rest =>
    if r.length ≠ 6 then
      Except.error ("Incorrect number of bindings supplied: 6 expected, " ++
        toString r.length ++ " supplied")
    else
      match decodeRow r with
      | none => Except.error "datatype mismatch"
      | some pr => insertRowsAux (upsertAssoc (pr.market_name, pr.item_code) pr tbl) rest

/-- `insert_products_batch` (src/database.py lines 115-135): returns True
immediately on an empty batch without touching the database; otherwise runs
`executemany` in a single transaction — on any error the transaction is
rolled back (the store is unchanged, modelled by returning `Except.error`)
and the exception is re-raised. -/
def insert_products_batch (db : Store) (products_data : List (List SqlValue)) :
    Except String (Store × Bool) :=
  if products_data.isEmpty then Except.ok (db, true)
  else
    match db.products with
    | none => Except.error "no such table: products"
    | some tbl =>
      match insertRowsAux tbl products_data with
      | Except.error e => Except.error e
      | Except.ok tbl' => Except.ok ({ db with products := some tbl' }, true)

/-- Apply the converted assignment tuples `(market_name, item_code,
category_code)` via `INSERT OR REPLACE INTO product_categories`
(src/database.py lines 147-158). -/
def applyAssignments : Store → List (String × String × String) → Store
  | db, [] => db
  | db, a :: rest =>
    applyAssignments
      { db with product_categories := upsertAssoc (a.1, a.2.1) a.2.2 db.product_categories }
      rest

/-- `update_categories_batch` (src/database.py lines 137-164): takes tuples
`(category_code, market_name, item_code)`, converts each to
`(market_name, item_code, category_code)` by positional unpacking, and
upserts them; returns True when no SQL error occurs. -/
def update_categories_batch (db : Store)
    (category_assignments : List (String × String × String)) : Store × Bool :=
  if category_assignments.isEmpty then (db, true)
  else
    let assignments_for_db := category_assignments.map fun t => (t.2.1, t.2.2, t.1)
    (applyAssignments db assignments_for_db, true)

/-- `rebuild_fts_index` (src/database.py lines 166-176): recomputes the FTS
index from the current `products` contents; returns False on an SQL error
(missing table), leaving the store unchanged. -/
def rebuild_fts_index (db : Store) : Store × Bool :=
  match db.products with
  | none => (db, false)
  | some tbl => ({ db with fts := tbl.map Prod.fst }, true)

/-- `save_category_mapping` (src/database.py lines 346-354): `INSERT OR
REPLACE` of each catalog code/name pair. -/
def save_category_mapping (db : Store) (categories : List (String × String)) : Store :=
  { db with
    categories := categories.foldl (fun acc cn => upsertAssoc cn.1 cn.2 acc) db.categories }

/-- `cleanup_orphaned_categories` (src/database.py lines 356-374): deletes
every `product_categories` row whose key matches no current product and
returns the number deleted; on an SQL error (missing products table) it
returns 0 with the store unchanged. -/
def cleanup_orphaned_categories (db : Store) : Store × Nat :=
  match db.products with
  | none => (db, 0)
  | some tbl =>
    let keys := tbl.map Prod.fst
    let kept := db.product_categories.filter fun kv => decide (kv.1 ∈ keys)
    ({ db with product_categories := kept }, db.product_categories.length - kept.length)

/-- The value of a Paradox `ClientPrice` field as seen by `float(...)`:
either a numeric value or one on which `float` raises
`ValueError`/`TypeError`. -/
inductive PxVal : Type
  | num (q : Rat)
  | bad
deriving DecidableEq, Repr

/-- One raw row yielded by the legacy Paradox reader.  `none` collapses the
code's two "missing" cases (`not hasattr` and attribute `is None`,
src/processor.py lines 138-143).  `act` models the optional activity-flag
field of the external row contract; the processor never reads it. -/
structure PxRow where
  item : Option String
  id : Option String
  clientPrice : Option PxVal
  act : Option String
deriving DecidableEq, Repr

/-- One configured source (config.yaml market entry): identity fields plus
the rows of the Paradox table at its `path_to_db`. -/
structure MarketInfo where
  name : String
  address : String
  settlement : String
  rows : List PxRow
deriving DecidableEq, Repr

/-- Why a row was skipped (src/processor.py lines 146-205); each skip writes
one audit entry and increments the skipped counter. -/
inductive SkipReason : Type
  | missingAttributes (attrs : List String)
  | dataFormatError
deriving DecidableEq, Repr

/-- Outcome of validating one row: skipped, or accepted with the 7-element
parameter tuple `product_data` and the key recorded in
`inserted_item_keys`. -/
inductive RowOutcome : Type
  | skip (reason : SkipReason)
  | ok (data : List SqlValue) (key : String × String)
deriving DecidableEq, Repr

/-- Row validation and preparation (src/processor.py lines 136-205): the
missing-attribute check over Item, id, ClientPrice; then type coercion
(`float` failure skips with a data-format error); on success it builds the
7-element `product_data` tuple — including the legacy category slot looked
up under the transposed key `(item_code, market_name)` and a trailing None —
and records the key `(item_code, market_name)`. -/
def prepareRow (mi : MarketInfo)
    (category_assignments : List ((String × String) × String)) (row : PxRow) : RowOutcome :=
  match row.item, row.id, row.clientPrice with
  | some itemName, some itemCode, some pv =>
    (match pv with
     | PxVal.bad => RowOutcome.skip SkipReason.dataFormatError
     | PxVal.num q =>
       let db_market_name := mi.name ++ " " ++ mi.address
       let initial_category_code := lookupAssoc category_assignments (itemCode, db_market_name)
       RowOutcome.ok
         [SqlValue.str mi.settlement, SqlValue.str db_market_name, SqlValue.str itemName,
          SqlValue.str itemCode,
          (match initial_category_code with
           | some c => SqlValue.str c
           | none => SqlValue.null),
          SqlValue.real q, SqlValue.null]
         (itemCode, db_market_name))
  | i, d, p =>
    RowOutcome.skip (SkipReason.missingAttributes
      ((if i.isNone then ["Item"] else []) ++ (if d.isNone then ["id"] else []) ++
        (if p.isNone then ["ClientPrice"] else [])))

/-- The valid-row batch accumulated for one market (`current_batch`). -/
def marketBatch (mi : MarketInfo)
    (category_assignments : List ((String × String) × String)) : List (List SqlValue) :=
  mi.rows.filterMap fun r =>
    match prepareRow mi category_assignments r with
    | RowOutcome.ok d _ => some d
    | RowOutcome.skip _ => none

/-- The keys recorded alongside the batch (`inserted_item_keys`), each of
the form `(item_code, market_name)`. -/
def marketKeys (mi : MarketInfo)
    (category_assignments : List ((String × String) × String)) : List (String × String) :=
  mi.rows.filterMap fun r =>
    match prepareRow mi category_assignments r with
    | RowOutcome.ok _ k => some k
    | RowOutcome.skip _ => none

/-- The post-insert reapplication scan (src/processor.py lines 218-224):
look each recorded key up in the snapshot (Python truthiness again drops
empty codes) and emit `(category_code, item_code, market_name)` tuples. -/
def assignmentsToUpdate (category_assignments : List ((String × String) × String))
    (inserted_item_keys : List (String × String)) : List (String × String × String) :=
  inserted_item_keys.filterMap fun k =>
    match lookupAssoc category_assignments k with
    | some c => if c = "" then none else some (c, k.1, k.2)
    | none => none

/-- A database operation performed during a run, for stating which
operations a run does and does not invoke.  `backupCreate` and
`cleanupOrphanedCategories` name the spec's Backup Guard and orphan purge. -/
inductive RunOp : Type
  | backupCreate
  | getCurrentCategories
  | dropTables
  | createTables
  | saveCategoryMapping
  | insertBatch (n : Nat)
  | updateCategoriesBatch (n : Nat)
  | cleanupOrphanedCategories
  | rebuildFtsIndex
deriving DecidableEq, Repr

/-- The per-market loop of `paradox_to_sqlite` (src/processor.py lines
94-260): for each market, insert the whole validated batch (a failure is
fatal to the run), reapply categories for recorded keys found in the
snapshot, and after the last market rebuild the FTS index.  Returns the
resulting store (or the fatal error) with the database operations
performed. -/
def processMarkets (category_assignments : List ((String × String) × String)) :
    Store → List MarketInfo → (Except String Store) × List RunOp
  | st, [] => (Except.ok (rebuild_fts_index st).1, [RunOp.rebuildFtsIndex])
  | st, mi :: rest =>
    let batch := marketBatch mi category_assignments
    match insert_products_batch st batch with
    | Except.error e => (Except.error e, [RunOp.insertBatch batch.length])
    | Except.ok (st1, _) =>
      let assigns := assignmentsToUpdate category_assignments (marketKeys mi category_assignments)
      if assigns.isEmpty then
        ((processMarkets category_assignments st1 rest).1,
          RunOp.insertBatch batch.length :: (processMarkets category_assignments st1 rest).2)
      else
        ((processMarkets category_assignments ((update_categories_batch st1 assigns).1) rest).1,
          RunOp.insertBatch batch.length :: RunOp.updateCategoriesBatch assigns.length ::
            (processMarkets category_assignments ((update_categories_batch st1 assigns).1) rest).2)

/-- Total row count over all markets (`_count_total_rows`). -/
def totalRows (markets : List MarketInfo) : Nat :=
  (markets.map fun m => m.rows.length).sum

/-- `paradox_to_sqlite` (src/processor.py lines 66-267): returns immediately
when there are no rows at all; otherwise processes every market in
configuration order. -/
def paradox_to_sqlite (markets : List MarketInfo) (db : Store)
    (category_assignments : List ((String × String) × String)) :
    (Except String Store) × List RunOp :=
  if totalRows markets = 0 then (Except.ok db, [])
  else processMarkets category_assignments db markets

/-- `initialize_app` (src/app.py lines 136-175), store side: snapshot the
current category assignments, drop and recreate the bulk tables, save the
category catalog, then run the processor with the snapshot.  No backup of
any kind is taken, and the orphan purge is never invoked. -/
def init_app (markets : List MarketInfo) (db : Store) (catalog : List (String × String)) :
    (Except String Store) × List RunOp :=
  let snapshot := get_current_categories db
  let db1 := drop_tables db
  match create_tables db1 with
  | Except.error e => (Except.error e, [RunOp.getCurrentCategories, RunOp.dropTables])
  | Except.ok db2 =>
    let db3 := save_category_mapping db2 catalog
    ((paradox_to_sqlite markets db3 snapshot).1,
      RunOp.getCurrentCategories :: RunOp.dropTables :: RunOp.createTables ::
        RunOp.saveCategoryMapping :: (paradox_to_sqlite markets db3 snapshot).2)

/-- The item keys `(item_code, market_name)` the processor would record for
a store-level batch of already-validated 6-value parameter rows (positions
1 and 3 of `product_data`, transposed exactly as the processor records
them). -/
def insertedKeysOf (batch : List (List SqlValue)) : List (String × String) :=
  batch.filterMap fun r =>
    match r with
    | [_, SqlValue.str mn, _, SqlValue.str ic, _, _] => some (ic, mn)
    | _ => none

/-- The composite product keys `(market_name, item_code)` inserted by a
store-level run over the given batches. -/
def insertedProductKeys (batches : List (List (List SqlValue))) : List (String × String) :=
  batches.flatMap fun b =>
    b.filterMap fun r => (decodeRow r).map fun pr => (pr.market_name, pr.item_code)

/-- The store-operation sequence of the per-market loop over already
validated batches: one `insert_products_batch` per source, then the
reapplication scan and `update_categories_batch` when it found anything. -/
def runBatches (snapshot : List ((String × String) × String)) :
    Store → List (List (List SqlValue)) → Except String Store
  | st, [] => Except.ok st
  | st, b :: rest =>
    match insert_products_batch st b with
    | Except.error e => Except.error e
    | Except.ok (st1, _) =>
      let assigns := assignmentsToUpdate snapshot (insertedKeysOf b)
      if assigns.isEmpty then runBatches snapshot st1 rest
      else runBatches snapshot ((update_categories_batch st1 assigns).1) rest

/-- The full reconciliation run at the store level (`initialize_app` +
`paradox_to_sqlite`), with the per-source validated batches as input:
snapshot, drop, recreate, reload catalog, per-source insert and reapply,
final FTS rebuild.  (No backup and no orphan purge: the code has
neither.) -/
def reconcile (db : Store) (catalog : List (String × String))
    (batches : List (List (List SqlValue))) : Except String Store :=
  let snapshot := get_current_categories db
  match create_tables (drop_tables db) with
  | Except.error e => Except.error e
  | Except.ok db2 =>
    match runBatches snapshot (save_category_mapping db2 catalog) batches with
    | Except.error e => Except.error e
    | Except.ok db4 => Except.ok (rebuild_fts_index db4).1

/-- Python `str.isspace` characters handled by `strip()`/`split()` (ASCII
range). -/
def pyIsSpace (c : Char) : Bool :=
  c = ' ' || c = '\t' || c = '\n' || c = '\r' || c = Char.ofNat 11 || c = Char.ofNat 12

/-- Python `str.strip()` with no arguments. -/
def pyStrip (s : String) : String :=
  String.mk (((s.toList.dropWhile pyIsSpace).reverse.dropWhile pyIsSpace).reverse)

/-- Helper for Python `str.split()` with no arguments: split on runs of
whitespace, dropping empty pieces. -/
def pySplitAux : List Char → List Char → List String
  | [], acc => if acc.isEmpty then [] else [String.mk acc.reverse]
  | c :: cs, acc =>
    if pyIsSpace c then
      (if acc.isEmpty then pySplitAux cs [] else String.mk acc.reverse :: pySplitAux cs [])
    else pySplitAux cs (c :: acc)

/-- Python `str.split()` with no arguments. -/
def pySplit (s : String) : List String :=
  pySplitAux s.toList []

/-- The whitespace-separated tokens of a product's four FTS5-indexed
columns. -/
def rowTokens (r : ProductRow) : List String :=
  pySplit r.settlement ++ pySplit r.market_name ++ pySplit r.item_name ++ pySplit r.item_code

/-- FTS5 prefix matching for the built query: every search word must be a
prefix of some token of the row (the NEAR proximity window and the ranking
of the results are abstracted away). -/
def ftsRowMatch (words : List String) (r : ProductRow) : Bool :=
  words.all fun w => (rowTokens r).any fun t => t.startsWith w

/-- The FTS5 MATCH query string built by `search_products`
(src/database.py line 195). -/
def buildFtsQuery (fts_conditions : List String) : String :=
  String.intercalate " NEAR(" fts_conditions ++
    String.mk (List.replicate (fts_conditions.length - 1) ')')

/-- `search_products` (src/database.py lines 178-217): an empty or
whitespace-only term returns `[]` before any query is built; otherwise the
term is tokenized, each token becomes a quoted prefix condition, and rows
currently present in the FTS index that match every condition are
returned. -/
def search_products (db : Store) (search_term : String) : List ProductRow :=
  if pyStrip search_term = "" then []
  else
    let search_words := pySplit (pyStrip search_term)
    if search_words.isEmpty then []
    else
      let words := search_words.filter fun w => w ≠ ""
      let fts_conditions := words.map fun w => "\"" ++ w ++ "\"*"
      if fts_conditions.isEmpty then []
      else
        let _fts_query := buildFtsQuery fts_conditions
        match db.products with
        | none => []
        | some tbl =>
          (tbl.filter fun kv => decide (kv.1 ∈ db.fts) && ftsRowMatch words kv.2).map Prod.snd

/-- An unreduced fraction with (by construction) positive denominator: an
executable exact-rational representation used to model Python float
arithmetic.  (Values of type `Rat` elsewhere in this file are only carried
and compared, never computed with.) -/
structure Frac where
  num : Int
  den : Int
deriving Repr

/-- Strict comparison of fractions with positive denominators. -/
def fracLt (x y : Frac) : Bool :=
  decide (x.num * y.den < y.num * x.den)

/-- Two to an integer power, as a fraction. -/
def pow2Frac (e : Int) : Frac :=
  if 0 ≤ e then ⟨((2 ^ e.toNat : Nat) : Int), 1⟩ else ⟨1, ((2 ^ (-e).toNat : Nat) : Int)⟩

/-- Fraction multiplication. -/
def mulFrac (x y : Frac) : Frac :=
  ⟨x.num * y.num, x.den * y.den⟩

/-- Floor of a fraction with positive denominator. -/
def floorFrac (x : Frac) : Int :=
  Int.fdiv x.num x.den

/-- Fuelled floor-log2 on naturals (the fuel `n` itself always suffices). -/
def log2Fuel : Nat → Nat → Nat
  | 0, _ => 0
  | f + 1, n => if n ≤ 1 then 0 else log2Fuel f (n / 2) + 1

/-- Floor of log2 of a natural number. -/
def natLog2 (n : Nat) : Nat := log2Fuel n n

/-- Floor of log2 of a positive fraction. -/
def floorLog2Frac (q : Frac) : Int :=
  let a : Int := (natLog2 q.num.toNat : Int) - (natLog2 q.den.toNat : Int)
  if fracLt q (pow2Frac a) then a - 1 else a

/-- Round a nonnegative fraction to the nearest integer, ties to even. -/
def roundHalfEvenFrac (x : Frac) : Int :=
  let fl := floorFrac x
  let r := x.num - fl * x.den
  if 2 * r < x.den then fl
  else if x.den < 2 * r then fl + 1
  else if fl % 2 = 0 then fl else fl + 1

/-- Round a positive fraction to the nearest IEEE-754 double (53-bit
significand, round to nearest, ties to even; normal range). -/
def roundDoublePosFrac (q : Frac) : Frac :=
  let e : Int := floorLog2Frac q - 52
  mulFrac ⟨roundHalfEvenFrac (mulFrac q (pow2Frac (-e))), 1⟩ (pow2Frac e)

/-- Round a fraction to the nearest IEEE-754 double (normal range). -/
def roundDoubleFrac (q : Frac) : Frac :=
  if q.num = 0 then ⟨0, 1⟩
  else if q.num < 0 then
    ⟨-(roundDoublePosFrac ⟨-q.num, q.den⟩).num, (roundDoublePosFrac ⟨-q.num, q.den⟩).den⟩
  else roundDoublePosFrac q

/-- Python `int(...)` on a float: truncation toward zero. -/
def truncFrac (x : Frac) : Int :=
  if 0 ≤ x.num then floorFrac x else -(Int.fdiv (-x.num) x.den)

/-- The overall progress percentage computed for each processed row
(src/processor.py line 117): `int((processed_rows / total_all_rows) * 100)`
in Python double-precision float arithmetic — a correctly rounded division
followed by a correctly rounded multiplication by 100, then truncation. -/
def progressPercent (processed total : Nat) : Int :=
  truncFrac (roundDoubleFrac
    (mulFrac (roundDoubleFrac ⟨(processed : Int), (total : Int)⟩) ⟨100, 1⟩))

/-- The exact-arithmetic reading of the same formula: integer truncation of
the rational `processed / total * 100`. -/
def exactProgress (processed total : Nat) : Int :=
  truncFrac (mulFrac ⟨(processed : Int), (total : Int)⟩ ⟨100, 1⟩)

/-- The status-update cadence (src/processor.py line 119): update on every
100th row of a source and on the row that completes the source. -/
def shouldUpdateStatus (row_num market_rows : Nat) : Bool :=
  row_num % 100 == 0 || row_num == market_rows

/-- The shared `processing_status` record (src/app.py lines 13-22). -/
structure Status where
  is_processing : Bool
  current_market : String
  progress : Int
  total_markets : Nat
  processed_markets : Nat
  message : String
  error : Option String
  database_ready : Bool
deriving DecidableEq, Repr

/-- The module-level initial value of `processing_status`. -/
def statusInit : Status :=
  ⟨false, "", 0, 0, 0, "Ready for processing...", none, false⟩

/-- The write performed by `initialize_database_tables` (src/app.py lines
124 and 132): `database_ready := check_database_ready()`, i.e. whether the
persisted store already holds products. -/
def write_init_tables (hasData : Bool) (s : Status) : Status :=
  { s with database_ready := hasData }

/-- The run-start writes (src/app.py lines 145-146). -/
def write_run_start (s : Status) : Status :=
  { s with is_processing := true, message := "Starting database setup..." }

/-- One mid-run progress write: `_update_status`, the `total_markets` write,
and the `processed_markets` write (src/processor.py lines 36-40, 244;
src/app.py line 153) touch only these five fields. -/
structure BodyWrite where
  current_market : String
  progress : Int
  message : String
  total_markets : Nat
  processed_markets : Nat
deriving DecidableEq, Repr

/-- Apply one mid-run progress write. -/
def applyBody (s : Status) (b : BodyWrite) : Status :=
  { s with
    current_market := b.current_market, progress := b.progress, message := b.message,
    total_markets := b.total_markets, processed_markets := b.processed_markets }

/-- Every intermediate state of a sequence of mid-run writes. -/
def bodyStates : Status → List BodyWrite → List Status
  | _, [] => []
  | s, b :: bs => applyBody s b :: bodyStates (applyBody s b) bs

/-- The state after a sequence of mid-run writes. -/
def bodyFinal (s : Status) (bs : List BodyWrite) : Status :=
  bs.foldl applyBody s

/-- The terminal state of the success epilogue (src/app.py lines 168-171). -/
def successFinal (s : Status) : Status :=
  { s with
    is_processing := false
    message := "Data processing completed successfully!"
    database_ready := true
    error := none }

/-- The four single-field success writes, cumulatively (src/app.py lines
168-171: `is_processing`, `message`, `database_ready`, `error`). -/
def successWrites (s : Status) : List Status :=
  [{ s with is_processing := false },
   { s with is_processing := false, message := "Data processing completed successfully!" },
   { s with
     is_processing := false
     message := "Data processing completed successfully!"
     database_ready := true },
   successFinal s]

/-- The terminal state of the failure path (src/processor.py lines 250-251
then src/app.py lines 172-175). -/
def failureFinal (e : String) (s : Status) : Status :=
  { s with
    is_processing := false
    message := "Error during processing: " ++ e
    error := some e }

/-- The failure-path writes, cumulatively: the processor's error write, then
the `except` block's `is_processing`, `error` and `message` writes. -/
def failureWrites (e : String) (s : Status) : List Status :=
  [{ s with error := some e, message := e },
   { s with error := some e, message := e, is_processing := false },
   failureFinal e s]

/-- How one run of `initialize_app` ends. -/
inductive RunOutcome : Type
  | success
  | failure (e : String)
deriving DecidableEq, Repr

/-- One run of `initialize_app`: its mid-run progress writes and its
outcome. -/
structure RunSpec where
  body : List BodyWrite
  outcome : RunOutcome
deriving DecidableEq, Repr

/-- The terminal writes of a run. -/
def outcomeStates (s : Status) : RunOutcome → List Status
  | RunOutcome.success => successWrites s
  | RunOutcome.failure e => failureWrites e s

/-- Every post-write state of one run of `initialize_app`, starting from
`s0`. -/
def runStates (s0 : Status) (r : RunSpec) : List Status :=
  write_run_start s0 :: bodyStates (write_run_start s0) r.body ++
    outcomeStates (bodyFinal (write_run_start s0) r.body) r.outcome

/-- The state a run of `initialize_app` leaves behind. -/
def runFinal (s0 : Status) (r : RunSpec) : Status :=
  match r.outcome with
  | RunOutcome.success => successFinal (bodyFinal (write_run_start s0) r.body)
  | RunOutcome.failure e => failureFinal e (bodyFinal (write_run_start s0) r.body)

/-- The fresh status dict installed by the manual `/api/start-processing`
route before it spawns a run (src/app.py lines 211-220). -/
def resetStatus : Status :=
  ⟨true, "", 0, 0, 0, "Starting manual processing...", none, false⟩

/-- Every post-write state of a sequence of manual runs, each preceded by
the route's status reset. -/
def manualStates : Status → List RunSpec → List Status
  | _, [] => []
  | _, r :: rs => resetStatus :: runStates resetStatus r ++ manualStates (runFinal resetStatus r) rs

/-- One execution of the application: the table-initialization write (with
whether the persisted store already held data), the optional startup-mode
run, then any number of manual runs. -/
structure AppExec where
  storeHadData : Bool
  startup : Option RunSpec
  manual : List RunSpec
deriving DecidableEq, Repr

/-- Every state the shared Run Status record passes through during one
execution, in write order. -/
def execStates (e : AppExec) : List Status :=
  statusInit :: write_init_tables e.storeHadData statusInit ::
    (match e.startup with
     | none => manualStates (write_init_tables e.storeHadData statusInit) e.manual
     | some r =>
       runStates (write_init_tables e.storeHadData statusInit) r ++
         manualStates (runFinal (write_init_tables e.storeHadData statusInit) r) e.manual)

/-- A store that has been initialized (all tables exist, all empty). -/
def emptyTablesStore : Store := ⟨some [], [], [], []⟩

/-- Store for the C1 witness: one persisted classification for the key
`("M 1", "A1")`. -/
def c1Db : Store := ⟨some [], [(("M 1", "A1"), "5")], [], []⟩

/-- One single-source batch for the C1 witness: a validated 6-value row
whose composite key matches the persisted classification. -/
def c1Batches : List (List (List SqlValue)) :=
  [[[SqlValue.str "S", SqlValue.str "M 1", SqlValue.str "Bread", SqlValue.str "A1",
     SqlValue.real (5 / 2 : Rat), SqlValue.null]]]

/-- The store the C1 witness run produces. -/
def c1Final : Store :=
  match reconcile c1Db [] c1Batches with
  | Except.ok s => s
  | Except.error _ => c1Db

/-- Store for C2: one persisted classification, keyed
`(market_name, item_code) = ("Shop 1 Main St", "A100")` exactly as
`get_current_categories` returns it. -/
def c2Db : Store := ⟨some [], [(("Shop 1 Main St", "A100"), "5")], [], []⟩

/-- Source for C2: display name "Shop 1", address "Main St", so the
composed market name is "Shop 1 Main St". -/
def c2Market : MarketInfo := ⟨"Shop 1", "Main St", "Sofia", []⟩

/-- A fully valid row for C2 whose product key matches the persisted
classification. -/
def c2Row : PxRow := ⟨some "Bread", some "A100", some (PxVal.num (5 / 2 : Rat)), none⟩

/-- The `product_data` tuple the processor builds for `c2Row`: note the
category slot stays NULL because the snapshot lookup uses the transposed
key. -/
def c2Data : List SqlValue :=
  [SqlValue.str "Sofia", SqlValue.str "Shop 1 Main St", SqlValue.str "Bread",
   SqlValue.str "A100", SqlValue.null, SqlValue.real (5 / 2 : Rat), SqlValue.null]

/-- Store for C3: one persisted classification whose key will match no
product of the run. -/
def c3Db : Store := ⟨some [], [(("Old", "K"), "7")], [], []⟩

/-- Sources for C3: one market with a single invalid row (missing `Item`),
so the run completes with an empty products table. -/
def c3Markets : List MarketInfo :=
  [⟨"M", "1", "S", [⟨none, some "x", some (PxVal.num 1), none⟩]⟩]

/-- The store the C3 run leaves behind. -/
def c3Final : Store :=
  match (init_app c3Markets c3Db []).1 with
  | Except.ok s => s
  | Except.error _ => c3Db

/-- Store for C4: initialized and empty. -/
def c4Db : Store := emptyTablesStore

/-- Sources for C4: one market whose single row is skipped. -/
def c4Markets : List MarketInfo :=
  [⟨"M", "1", "S", [⟨none, some "x", some (PxVal.num 1), none⟩]⟩]

/-- Source for C5. -/
def c5Market : MarketInfo := ⟨"M", "1", "S", []⟩

/-- A fully valid row for C5. -/
def c5Row : PxRow := ⟨some "Bread", some "A1", some (PxVal.num (5 / 2 : Rat)), none⟩

/-- The 7-element `product_data` tuple the processor builds for `c5Row`. -/
def c5Data : List SqlValue :=
  [SqlValue.str "S", SqlValue.str "M 1", SqlValue.str "Bread", SqlValue.str "A1",
   SqlValue.null, SqlValue.real (5 / 2 : Rat), SqlValue.null]

/-- Store for C5: initialized and empty. -/
def c5Store : Store := emptyTablesStore

/-- Source for C6. -/
def c6Market : MarketInfo := ⟨"M", "1", "S", []⟩

/-- A row for C6 whose activity flag is present and not the active sentinel
`"*"`, with all required fields present and well-typed. -/
def c6Row : PxRow := ⟨some "Bread", some "A1", some (PxVal.num (5 / 2 : Rat)), some "N"⟩

/-- The tuple the processor builds for `c6Row` (it is accepted, not
skipped). -/
def c6Data : List SqlValue :=
  [SqlValue.str "S", SqlValue.str "M 1", SqlValue.str "Bread", SqlValue.str "A1",
   SqlValue.null, SqlValue.real (5 / 2 : Rat), SqlValue.null]

/-- Execution for the C7 counterexample: the persisted store already held
products when `initialize_database_tables` ran, and the startup-mode run
then failed. -/
def c7Exec : AppExec := ⟨true, some ⟨[], RunOutcome.failure "boom"⟩, []⟩

/-- The state that execution ends in. -/
def c7Bad : Status :=
  runFinal (write_init_tables true statusInit) ⟨[], RunOutcome.failure "boom"⟩

/-- Execution for the C7 witness: empty store at initialization, one
successful startup run. -/
def c7GoodExec : AppExec := ⟨false, some ⟨[], RunOutcome.success⟩, []⟩

/-- The final state of that execution. -/
def c7GoodFinal : Status :=
  runFinal (write_init_tables false statusInit) ⟨[], RunOutcome.success⟩

/-- Store for the C8 witness: one product, present in the FTS index. -/
def c8Db : Store :=
  ⟨some [(("M 1", "A1"), ⟨"S", "M 1", "Bread", "A1", some (5 / 2 : Rat), none⟩)],
   [], [], [("M 1", "A1")]⟩

theorem lookupAssoc_mem_keys {α β : Type} [DecidableEq α] (l : List (α × β)) (k : α) (v : β)
    (h : lookupAssoc l k = some v) : k ∈ l.map Prod.fst := by
  induction l with
  | nil => simp [lookupAssoc] at h
  | cons hd tl ih =>
    obtain ⟨k0, v0⟩ := hd
    by_cases hk : k0 = k
    · subst hk; simp
    · simp only [lookupAssoc, if_neg hk] at h
      simp [ih h]

theorem upsertAssoc_self {α β : Type} [DecidableEq α] (l : List (α × β)) (k : α) (v : β)
    (h : lookupAssoc l k = some v) : upsertAssoc k v l = l := by
  induction l with
  | nil => simp [lookupAssoc] at h
  | cons hd tl ih =>
    obtain ⟨k0, v0⟩ := hd
    by_cases hk : k0 = k
    · subst hk
      have h' : v0 = v := by simpa [lookupAssoc] using h
      simp [upsertAssoc, h']
    · simp only [lookupAssoc, if_neg hk] at h
      simp [upsertAssoc, hk, ih h]

theorem lookupAssoc_filter {α β : Type} [DecidableEq α] (p : α × β → Bool) (l : List (α × β))
    (hnd : (l.map Prod.fst).Nodup) (k : α) (v : β)
    (h : lookupAssoc (l.filter p) k = some v) : lookupAssoc l k = some v := by
  induction l with
  | nil => simp [List.filter, lookupAssoc] at h
  | cons hd tl ih =>
    obtain ⟨k0, v0⟩ := hd
    simp only [List.map, List.nodup_cons] at hnd
    by_cases hp : p (k0, v0)
    · rw [List.filter_cons_of_pos hp] at h
      by_cases hk : k0 = k
      · subst hk
        simp only [lookupAssoc, if_pos rfl] at h ⊢
        exact h
      · simp only [lookupAssoc, if_neg hk] at h ⊢
        exact ih hnd.2 h
    · rw [List.filter_cons_of_neg (by simpa using hp)] at h
      have hk : k0 ≠ k := by
        intro he
        subst he
        have hmem := lookupAssoc_mem_keys _ _ _ h
        rcases List.mem_map.1 hmem with ⟨kv, hkv, hfst⟩
        exact hnd.1 (List.mem_map.2 ⟨kv, List.mem_of_mem_filter hkv, hfst⟩)
      simp only [lookupAssoc, if_neg hk]
      exact ih hnd.2 h

theorem insert_products_batch_pc (db : Store) (rows : List (List SqlValue)) (st' : Store)
    (b : Bool) (h : insert_products_batch db rows = Except.ok (st', b)) :
    st'.product_categories = db.product_categories := by
  by_cases he : rows.isEmpty
  · simp only [insert_products_batch, if_pos he, Except.ok.injEq, Prod.mk.injEq] at h
    rw [← h.1]
  · cases hp : db.products with
    | none => simp [insert_products_batch, he, hp] at h
    | some tbl =>
      cases hr : insertRowsAux tbl rows with
      | error e => simp [insert_products_batch, he, hp, hr] at h
      | ok tbl' =>
        simp only [insert_products_batch, if_neg he, hp, hr, Except.ok.injEq,
          Prod.mk.injEq] at h
        rw [← h.1]

theorem applyAssignments_pc (bs : List (String × String × String)) :
    ∀ db : Store, (∀ a ∈ bs, lookupAssoc db.product_categories (a.1, a.2.1) = some a.2.2) →
      (applyAssignments db bs).product_categories = db.product_categories := by
  induction bs with
  | nil => intro db _; rfl
  | cons a rest ih =>
    intro db hall
    have h0 : lookupAssoc db.product_categories (a.1, a.2.1) = some a.2.2 :=
      hall a (List.mem_cons_self a rest)
    have hup : upsertAssoc (a.1, a.2.1) a.2.2 db.product_categories = db.product_categories :=
      upsertAssoc_self _ _ _ h0
    simp only [applyAssignments]
    rw [hup]
    exact ih db fun x hx => hall x (List.mem_cons_of_mem a hx)

theorem update_categories_batch_pc (db : Store) (ts : List (String × String × String))
    (hall : ∀ t ∈ ts, lookupAssoc db.product_categories (t.2.1, t.2.2) = some t.1) :
    (update_categories_batch db ts).1.product_categories = db.product_categories := by
  by_cases he : ts.isEmpty
  · simp [update_categories_batch, he]
  · simp only [update_categories_batch, if_neg he]
    refine applyAssignments_pc _ db ?_
    intro a ha
    rcases List.mem_map.1 ha with ⟨t, ht, rfl⟩
    exact hall t ht

theorem mem_assignmentsToUpdate (snap : List ((String × String) × String))
    (keys : List (String × String)) (x : String × String × String)
    (hx : x ∈ assignmentsToUpdate snap keys) :
    lookupAssoc snap (x.2.1, x.2.2) = some x.1 := by
  rcases List.mem_filterMap.1 hx with ⟨k, _, hk⟩
  cases hl : lookupAssoc snap k with
  | none => rw [hl] at hk; simp at hk
  | some c =>
    rw [hl] at hk
    by_cases hc : c = ""
    · simp [hc] at hk
    · simp only [if_neg hc, Option.some.injEq] at hk
      rw [← hk]
      simpa using hl

theorem rebuild_fts_index_pc (db : Store) :
    (rebuild_fts_index db).1.product_categories = db.product_categories := by
  cases hp : db.products <;> simp [rebuild_fts_index, hp]

theorem runBatches_pc (snap : List ((String × String) × String)) :
    ∀ (bs : List (List (List SqlValue)))
      (st st' : Store),
      (∀ k c, lookupAssoc snap k = some c → lookupAssoc st.product_categories k = some c) →
      runBatches snap st bs = Except.ok st' →
      st'.product_categories = st.product_categories := by
  intro bs
  induction bs with
  | nil =>
    intro st st' _ h
    simp only [runBatches, Except.ok.injEq] at h
    rw [← h]
  | cons b rest ih =>
    intro st st' hsn h
    simp only [runBatches] at h
    cases hins : insert_products_batch st b with
    | error e => rw [hins] at h; simp at h
    | ok p =>
      obtain ⟨st1, bb⟩ := p
      have hpc1 : st1.product_categories = st.product_categories :=
        insert_products_batch_pc st b st1 bb hins
      rw [hins] at h
      by_cases hass : (assignmentsToUpdate snap (insertedKeysOf b)).isEmpty
      · simp only [if_pos hass] at h
        have := ih st1 st' (fun k c hk => by rw [hpc1]; exact hsn k c hk) h
        rw [this, hpc1]
      · simp only [if_neg hass] at h
        have hup :
            (update_categories_batch st1
              (assignmentsToUpdate snap (insertedKeysOf b))).1.product_categories =
              st1.product_categories := by
          refine update_categories_batch_pc st1 _ ?_
          intro t ht
          rw [hpc1]
          exact hsn _ _ (mem_assignmentsToUpdate snap (insertedKeysOf b) t ht)
        have := ih _ st' (fun k c hk => by rw [hup, hpc1]; exact hsn k c hk) h
        rw [this, hup, hpc1]

theorem processMarkets_ops (cat : List ((String × String) × String)) :
    ∀ (ms : List MarketInfo) (st : Store) (x : RunOp),
      x ∈ (processMarkets cat st ms).2 →
      (∃ n, x = RunOp.insertBatch n) ∨ (∃ n, x = RunOp.updateCategoriesBatch n) ∨
        x = RunOp.rebuildFtsIndex := by
  intro ms
  induction ms with
  | nil =>
    intro st x hx
    simp only [processMarkets, List.mem_singleton] at hx
    right; right; exact hx
  | cons mi rest ih =>
    intro st x hx
    simp only [processMarkets] at hx
    cases hins : insert_products_batch st (marketBatch mi cat) with
    | error e =>
      rw [hins] at hx
      simp only [List.mem_singleton] at hx
      left; exact ⟨_, hx⟩
    | ok p =>
      obtain ⟨st1, bb⟩ := p
      rw [hins] at hx
      by_cases hass : (assignmentsToUpdate cat (marketKeys mi cat)).isEmpty
      · simp only [if_pos hass, List.mem_cons] at hx
        rcases hx with hx | hx
        · left; exact ⟨_, hx⟩
        · exact ih st1 x hx
      · simp only [if_neg hass, List.mem_cons] at hx
        rcases hx with hx | hx | hx
        · left; exact ⟨_, hx⟩
        · right; left; exact ⟨_, hx⟩
        · exact ih _ x hx

theorem init_app_ops (markets : List MarketInfo) (db : Store) (catalog : List (String × String))
    (x : RunOp) (hx : x ∈ (init_app markets db catalog).2) :
    x = RunOp.getCurrentCategories ∨ x = RunOp.dropTables ∨ x = RunOp.createTables ∨
      x = RunOp.saveCategoryMapping ∨ (∃ n, x = RunOp.insertBatch n) ∨
      (∃ n, x = RunOp.updateCategoriesBatch n) ∨ x = RunOp.rebuildFtsIndex := by
  simp only [init_app] at hx
  cases hct : create_tables (drop_tables db) with
  | error e =>
    rw [hct] at hx
    simp only [List.mem_cons, List.not_mem_nil, or_false] at hx
    rcases hx with hx | hx
    · left; exact hx
    · right; left; exact hx
  | ok db2 =>
    rw [hct] at hx
    simp only [List.mem_cons] at hx
    rcases hx with hx | hx | hx | hx | hx
    · left; exact hx
    · right; left; exact hx
    · right; right; left; exact hx
    · right; right; right; left; exact hx
    · by_cases hz : totalRows markets = 0
      · simp [paradox_to_sqlite, hz] at hx
      · simp only [paradox_to_sqlite, if_neg hz] at hx
        rcases processMarkets_ops _ markets _ x hx with h | h | h
        · right; right; right; right; left; exact h
        · right; right; right; right; right; left; exact h
        · right; right; right; right; right; right; exact h

theorem init_app_first_op (markets : List MarketInfo) (db : Store)
    (catalog : List (String × String)) :
    ((init_app markets db catalog).2).head? = some RunOp.getCurrentCategories := by
  simp only [init_app]
  cases hct : create_tables (drop_tables db) <;> simp

theorem bodyStates_fields (bs : List BodyWrite) :
    ∀ (s : Status), ∀ t ∈ bodyStates s bs,
      t.database_ready = s.database_ready ∧ t.error = s.error := by
  induction bs with
  | nil => intro s t ht; simp [bodyStates] at ht
  | cons b rest ih =>
    intro s t ht
    simp only [bodyStates, List.mem_cons] at ht
    rcases ht with h | h
    · subst h; exact ⟨rfl, rfl⟩
    · exact ih (applyBody s b) t h

theorem bodyFinal_fields (bs : List BodyWrite) :
    ∀ (s : Status),
      (bodyFinal s bs).database_ready = s.database_ready ∧ (bodyFinal s bs).error = s.error := by
  induction bs with
  | nil => intro s; exact ⟨rfl, rfl⟩
  | cons b rest ih =>
    intro s
    simpa [bodyFinal, List.foldl_cons] using ih (applyBody s b)

theorem run_inv (s0 : Status) (r : RunSpec) (h1 : s0.database_ready = false)
    (h2 : s0.error = none) :
    ∀ t ∈ runStates s0 r, t.database_ready = true → t.error = none := by
  intro t ht
  unfold runStates at ht
  rcases List.mem_cons.1 ht with h | ht2
  · subst h; intro hr
    rw [show (write_run_start s0).database_ready = s0.database_ready from rfl, h1] at hr
    cases hr
  · rcases List.mem_append.1 ht2 with h | h
    · obtain ⟨hready, _⟩ := bodyStates_fields r.body (write_run_start s0) t h
      intro hr
      rw [hready] at hr
      rw [show (write_run_start s0).database_ready = s0.database_ready from rfl, h1] at hr
      cases hr
    · have hbf := bodyFinal_fields r.body (write_run_start s0)
      have hbr : (bodyFinal (write_run_start s0) r.body).database_ready = false := by
        rw [hbf.1]; exact h1
      have hbe : (bodyFinal (write_run_start s0) r.body).error = none := by
        rw [hbf.2]; exact h2
      cases ho : r.outcome with
      | success =>
        rw [ho] at h
        simp only [outcomeStates, successWrites, successFinal, List.mem_cons,
          List.not_mem_nil, or_false] at h
        rcases h with h | h | h | h <;> subst h <;> intro hr <;> simp_all
      | failure e =>
        rw [ho] at h
        simp only [outcomeStates, failureWrites, failureFinal, List.mem_cons,
          List.not_mem_nil, or_false] at h
        rcases h with h | h | h <;> subst h <;> intro hr <;> simp_all

theorem manual_inv : ∀ (rs : List RunSpec) (s : Status),
    ∀ t ∈ manualStates s rs, t.database_ready = true → t.error = none := by
  intro rs
  induction rs with
  | nil => intro s t ht; simp [manualStates] at ht
  | cons r rest ih =>
    intro s t ht
    unfold manualStates at ht
    rcases List.mem_cons.1 ht with h | ht2
    · subst h; intro hr; cases hr
    · rcases List.mem_append.1 ht2 with h | h
      · exact run_inv resetStatus r rfl rfl t h
      · exact ih (runFinal resetStatus r) t h

theorem reconcile_pc (db : Store) (catalog : List (String × String))
    (batches : List (List (List SqlValue))) (st' : Store)
    (hnodup : (db.product_categories.map Prod.fst).Nodup)
    (hrun : reconcile db catalog batches = Except.ok st') :
    st'.product_categories = db.product_categories := by
  have hstep : reconcile db catalog batches =
      match runBatches (get_current_categories db)
        (save_category_mapping { db with products := some [], fts := [] } catalog) batches with
      | Except.error e => Except.error e
      | Except.ok db4 => Except.ok (rebuild_fts_index db4).1 := rfl
  rw [hstep] at hrun
  cases hrb : runBatches (get_current_categories db)
      (save_category_mapping { db with products := some [], fts := [] } catalog) batches with
  | error e => rw [hrb] at hrun; simp at hrun
  | ok db4 =>
    rw [hrb] at hrun
    simp only [Except.ok.injEq] at hrun
    have hsave : (save_category_mapping { db with products := some [], fts := [] }
        catalog).product_categories = db.product_categories := rfl
    have h4 : db4.product_categories =
        (save_category_mapping { db with products := some [], fts := [] }
          catalog).product_categories := by
      refine runBatches_pc (get_current_categories db) batches _ db4 ?_ hrb
      intro k' c' hk'
      rw [hsave]
      exact lookupAssoc_filter _ _ hnodup k' c' hk'
    rw [← hrun, rebuild_fts_index_pc, h4, hsave]

/-- Claim C1: a Classification present before a reconciliation run, whose
composite key is inserted as a Product during the run, is still present and
maps to the same category code after the run completes — the drop/recreate
of the bulk tables does not remove or alter it.  (The run's category writes
are upserts of snapshot values at their own keys, and nothing else touches
`product_categories` during a run: no purge is invoked, `drop_tables` spares
the side table, and `create_tables` uses IF NOT EXISTS for it.)  The
key-uniqueness hypothesis reflects the table's PRIMARY KEY. -/
theorem category_survives_reconcile
    (db : Store) (catalog : List (String × String)) (batches : List (List (List SqlValue)))
    (k : String × String) (c : String) (st' : Store)
    (hnodup : (db.product_categories.map Prod.fst).Nodup)
    (hpre : lookupAssoc db.product_categories k = some c)
    (hrun : reconcile db catalog batches = Except.ok st')
    (_hins : k ∈ insertedProductKeys batches) :
    lookupAssoc st'.product_categories k = some c := by
  rw [reconcile_pc db catalog batches st' hnodup hrun]
  exact hpre

/-- Witness for C1: a concrete run over a store holding the classification
`(("M 1", "A1")) ↦ "5"` and one batch inserting the product with that key;
the classification is intact afterwards. -/
theorem category_survives_reconcile_witness :
    lookupAssoc c1Final.product_categories ("M 1", "A1") = some "5" :=
  category_survives_reconcile c1Db [] c1Batches ("M 1", "A1") "5" c1Final (by decide)
    (by decide) rfl (by decide)

/-- Claim C2: the snapshot read before the drop is keyed
`(market_name, item_code)`, but the processor records and looks up
`(item_code, market_name)`; for a product whose key has a snapshot category
the lookup misses, the reapplication list stays empty, and
`update_categories_batch` is never invoked for that key — refuting the
claim that every inserted key found in the snapshot gets its category
re-applied. -/
theorem category_reapply_lookup_misses :
    get_current_categories c2Db = [(("Shop 1 Main St", "A100"), "5")] ∧
    prepareRow c2Market (get_current_categories c2Db) c2Row =
      RowOutcome.ok c2Data ("A100", "Shop 1 Main St") ∧
    assignmentsToUpdate (get_current_categories c2Db) [("A100", "Shop 1 Main St")] = [] ∧
    c2Data.get? 4 = some SqlValue.null :=
  ⟨by decide, rfl, by decide, rfl⟩

/-- Claim C3: the orphan purge is never invoked by a reconciliation run: no
run trace contains the `cleanup_orphaned_categories` operation, and a
completed run leaves a classification in place whose key matches no product.
(The purge operation itself, were it called, does return the number of
classifications it removes — last conjunct.) -/
theorem orphan_purge_never_invoked :
    (∀ (markets : List MarketInfo) (db : Store) (catalog : List (String × String)),
      RunOp.cleanupOrphanedCategories ∉ (init_app markets db catalog).2) ∧
    (init_app c3Markets c3Db []).1 = Except.ok c3Final ∧
    lookupAssoc c3Final.product_categories ("Old", "K") = some "7" ∧
    (c3Final.products.getD []).map Prod.fst = [] ∧
    (∀ db : Store,
      (cleanup_orphaned_categories db).1.product_categories.length +
        (cleanup_orphaned_categories db).2 = db.product_categories.length) := by
  refine ⟨?_, rfl, by decide, by decide, ?_⟩
  · intro markets db catalog hx
    rcases init_app_ops markets db catalog _ hx with h | h | h | h | ⟨n, h⟩ | ⟨n, h⟩ | h <;>
      cases h
  · intro db
    cases hp : db.products with
    | none => simp [cleanup_orphaned_categories, hp]
    | some tbl =>
      simp only [cleanup_orphaned_categories, hp]
      have hle := List.length_filter_le
        (fun kv => decide (kv.1 ∈ tbl.map Prod.fst)) db.product_categories
      omega

/-- Counterexample for C4: a concrete reconciliation run's complete
operation trace — it contains no backup operation at all, so the Backup
Guard is not invoked as the first phase (or any phase) of the run. -/
theorem run_trace_no_backup_concrete :
    (init_app c4Markets c4Db []).2 =
      [RunOp.getCurrentCategories, RunOp.dropTables, RunOp.createTables,
       RunOp.saveCategoryMapping, RunOp.insertBatch 0, RunOp.rebuildFtsIndex] ∧
    RunOp.backupCreate ∉ (init_app c4Markets c4Db []).2 :=
  ⟨by decide, by decide⟩

/-- Claim C4 (amended): no reconciliation run performs any backup operation;
every run's first store operation is the classification snapshot read,
which is immediately followed by the destructive drop — there is no Backup
Guard gating the run. -/
theorem run_performs_no_backup :
    (∀ (markets : List MarketInfo) (db : Store) (catalog : List (String × String)),
      RunOp.backupCreate ∉ (init_app markets db catalog).2) ∧
    (∀ (markets : List MarketInfo) (db : Store) (catalog : List (String × String)),
      ((init_app markets db catalog).2).head? = some RunOp.getCurrentCategories) := by
  constructor
  · intro markets db catalog hx
    rcases init_app_ops markets db catalog _ hx with h | h | h | h | ⟨n, h⟩ | ⟨n, h⟩ | h <;>
      cases h
  · intro markets db catalog
    exact init_app_first_op markets db catalog

/-- Claim C5: the batch insert of a non-empty validated batch always fails —
the processor builds 7-element parameter tuples (a legacy category slot plus
a trailing None) for the 6-placeholder INSERT statement, so `executemany`
raises a binding-count error instead of succeeding. -/
theorem nonempty_batch_insert_fails :
    prepareRow c5Market [] c5Row = RowOutcome.ok c5Data ("A1", "M 1") ∧
    c5Data.length = 7 ∧
    insert_products_batch c5Store [c5Data] =
      Except.error "Incorrect number of bindings supplied: 6 expected, 7 supplied" :=
  ⟨rfl, by decide, rfl⟩

/-- Counterexample for C6: a row whose activity flag is present and not the
active sentinel `"*"` is accepted into the batch, not skipped with reason
"inactive" — row validation contains no activity filter. -/
theorem inactive_row_accepted_not_skipped :
    c6Row.act = some "N" ∧ prepareRow c6Market [] c6Row = RowOutcome.ok c6Data ("A1", "M 1") :=
  ⟨rfl, rfl⟩

/-- Claim C6 (amended): row validation ignores the activity flag entirely —
the outcome of validating any row is independent of its `Act` field; only
the required-field check and type coercion are applied. -/
theorem row_validation_ignores_activity_flag (mi : MarketInfo)
    (cat : List ((String × String) × String)) (row : PxRow) (a : Option String) :
    prepareRow mi cat { row with act := a } = prepareRow mi cat row := by
  cases row
  rfl

/-- Counterexample for C7: with a persisted store that already held data,
`initialize_database_tables` sets the ready flag true; a subsequent failed
run sets the error field without clearing the flag, reaching a state with
ready true and a pending error. -/
theorem ready_with_pending_error_reachable :
    c7Bad ∈ execStates c7Exec ∧ c7Bad.database_ready = true ∧ c7Bad.error = some "boom" :=
  ⟨by decide, by decide, by decide⟩

/-- Claim C7 (amended): provided the table-initialization write observes an
empty store (so it sets the ready flag false), every state the Run Status
record passes through satisfies the invariant: the ready flag is never true
while the error field is non-null.  The success epilogue sets ready true
only together with clearing the error, and every failure path leaves the
flag false. -/
theorem status_ready_implies_no_error (e : AppExec) (hinit : e.storeHadData = false) :
    ∀ t ∈ execStates e, t.database_ready = true → t.error = none := by
  obtain ⟨hd, stp, man⟩ := e
  have hd0 : hd = false := hinit
  subst hd0
  intro t ht
  cases stp with
  | none =>
    have ht' : t ∈ statusInit :: write_init_tables false statusInit ::
        manualStates (write_init_tables false statusInit) man := ht
    rcases List.mem_cons.1 ht' with h | ht2
    · subst h; intro hr; cases hr
    · rcases List.mem_cons.1 ht2 with h | ht3
      · subst h; intro hr; cases hr
      · exact manual_inv man _ t ht3
  | some r =>
    have ht' : t ∈ statusInit :: write_init_tables false statusInit ::
        (runStates (write_init_tables false statusInit) r ++
          manualStates (runFinal (write_init_tables false statusInit) r) man) := ht
    rcases List.mem_cons.1 ht' with h | ht2
    · subst h; intro hr; cases hr
    · rcases List.mem_cons.1 ht2 with h | ht3
      · subst h; intro hr; cases hr
      · rcases List.mem_append.1 ht3 with h | h
        · exact run_inv _ r rfl rfl t h
        · exact manual_inv man _ t h

/-- Witness for the amended C7: a concrete execution starting from an empty
store whose startup run succeeds; its final state has ready true and the
invariant gives error = none. -/
theorem status_ready_implies_no_error_witness : c7GoodFinal.error = none :=
  status_ready_implies_no_error c7GoodExec rfl c7GoodFinal (by decide) (by decide)

/-- Claim C8: a search term that is empty or whitespace-only returns the
empty result list, for any store contents — distinct from matching all
rows, since the result is `[]` even for a non-empty store. -/
theorem empty_search_returns_empty (db : Store) (search_term : String)
    (h : pyStrip search_term = "") : search_products db search_term = [] := by
  simp [search_products, h]

/-- Witness for C8: a whitespace-only term against a store holding one
product yields the empty result. -/
theorem empty_search_returns_empty_witness :
    pyStrip " " = "" ∧ search_products c8Db " " = [] ∧ c8Db.products ≠ some [] :=
  ⟨by decide, empty_search_returns_empty c8Db " " (by decide), by decide⟩

/-- Counterexample for C9: at 29 of 100 rows processed the code's
double-precision computation yields 28, while the integer truncation of the
exact value 29/100 × 100 is 29 — the claimed formula does not hold
row-for-row. -/
theorem progress_truncation_mismatch :
    progressPercent 29 100 = 28 ∧ exactProgress 29 100 = 29 :=
  ⟨by decide, by decide⟩

/-- Claim C9 (amended): the progress percentage is the integer truncation of
the double-precision evaluation of processed/total × 100 (which can fall one
below the exact truncation); Run Status is updated exactly on every 100th
row of a source and on the row that completes the source — in particular
always on the completing row, and not on every row once a source has at
least two rows. -/
theorem progress_update_cadence (n : Nat) (_h : 1 ≤ n) :
    shouldUpdateStatus n n = true ∧ (2 ≤ n → shouldUpdateStatus 1 n = false) ∧
    (∀ r : Nat, shouldUpdateStatus r n = true ↔ (r % 100 = 0 ∨ r = n)) := by
  refine ⟨?_, ?_, ?_⟩
  · simp [shouldUpdateStatus]
  · intro h2
    simp [shouldUpdateStatus]
    omega
  · intro r
    simp [shouldUpdateStatus]

/-- Witness for the amended C9: a five-row source is updated on its
completing row and not on its first row. -/
theorem progress_update_cadence_witness :
    shouldUpdateStatus 5 5 = true ∧ shouldUpdateStatus 1 5 = false :=
  ⟨(progress_update_cadence 5 (by decide)).1,
    (progress_update_cadence 5 (by decide)).2.1 (by decide)⟩

/-- Claim C10: the batch insert called with an empty product list returns
success and leaves the store completely unchanged — it returns before
opening a connection or transaction. -/
theorem empty_batch_insert_is_noop (db : Store) :
    insert_products_batch db [] = Except.ok (db, true) := rfl
